import Mathlib

/-!
Verification of the agent orchestration loop in `agent.js`.

The repository ships several evolutionary snapshots of the same program; the
final, most complete snapshot (the one with the task ledger, success criteria,
and the bounded step loop) is the target of the design document, and it is the
one embedded here.  External collaborators (the LLM completion endpoint, the
shell executor, the tokenizer `gpt-tokenizer`, the interactive prompt, the
clock and the id generator) are parameters of the embedding: each is passed in
as a function, and the embedded code manipulates their answers exactly the way
the JavaScript does.
-/

namespace Agent

/-! ## Data model -/

/-- A chat message: `{role, content}`. -/
structure Message where
  role : String
  content : String
deriving Repr, DecidableEq

/-- Constant `MAX_TOKENS = 6000` (agent.js line 277). -/
def MAX_TOKENS : Nat := 6000

/-- Constant `MAX_MESSAGES = 20` (agent.js line 278). -/
def MAX_MESSAGES : Nat := 20

/-- Is `sub` a contiguous infix of `l`?  (Helper for JavaScript's
`String.prototype.includes`.) -/
def listInfix (sub : List Char) : List Char → Bool
  | [] => sub.isEmpty
  | c :: cs => sub.isPrefixOf (c :: cs) || listInfix sub cs

/-- JavaScript `s.includes(sub)`. -/
def strIncludes (s sub : String) : Bool :=
  listInfix sub.data s.data

/-- JavaScript `s.toLowerCase()`: lower-case every character (all the strings the agent
scans are ASCII, where this agrees with JavaScript). -/
def jsToLower (s : String) : String :=
  String.mk (s.data.map Char.toLower)

/-- JavaScript `s.startsWith(pre)`. -/
def jsStartsWith (s pre : String) : Bool :=
  pre.data.isPrefixOf s.data

/-- Function `countMessageTokens(message)`: the tokenizer applied to
`` `${message.role}: ${message.content}` ``.  `tok` stands for the external
`encode(text).length` of `gpt-tokenizer`. -/
def countMessageTokens (tok : String → Nat) (m : Message) : Nat :=
  tok (m.role ++ ": " ++ m.content)

/-- Function `totalTokens()`: `messages.reduce((sum, msg) => sum + countMessageTokens(msg), 0)`. -/
def totalTokens (tok : String → Nat) (messages : List Message) : Nat :=
  (messages.map (countMessageTokens tok)).sum

/-- The body of `updateSystemPrompt()`: replace the content of the first
message whose role is `"system"` (the `findIndex` + in-place assignment),
keeping its role.  The new content string is computed by the caller from the
task state and the process environment. -/
def updateSystemPromptMsgs (newContent : String) : List Message → List Message
  | [] => []
  | m :: rest =>
    if m.role == "system" then { m with content := newContent } :: rest
    else m :: updateSystemPromptMsgs newContent rest

/-- JavaScript `arr.slice(-k)`: the last `k` elements (the whole array when it is
shorter than `k`). -/
def sliceLast (k : Nat) (l : List α) : List α := l.drop (l.length - k)

/-- The `while (totalTokens() > MAX_TOKENS && messages.length > 2)
messages.splice(1, 1)` loop of `compressContext`.  The fuel argument is the
initial list length, which bounds the number of iterations (each iteration
removes the element at index 1, and the loop requires more than two
elements). -/
def shrinkLoopAux (tok : String → Nat) : Nat → List Message → List Message
  | 0, l => l
  | fuel + 1, l =>
    match l with
    | m0 :: m1 :: m2 :: rest =>
      if totalTokens tok (m0 :: m1 :: m2 :: rest) > MAX_TOKENS then
        shrinkLoopAux tok fuel (m0 :: m2 :: rest)
      else m0 :: m1 :: m2 :: rest
    | l => l

def shrinkLoop (tok : String → Nat) (l : List Message) : List Message :=
  shrinkLoopAux tok l.length l

/-- Function `compressContext()` (final snapshot, agent.js lines 292-308): early return
when both ceilings hold; otherwise keep the system message plus the most
recent `MAX_MESSAGES - 1` messages, then repeatedly drop the oldest
non-system message while over the token budget and more than two messages
remain, and finally call `updateSystemPrompt()`.  `sysContent` is the system
prompt text that `updateSystemPrompt` regenerates from the task state at that
moment.  The empty-list case is unreachable in the program (the context always
starts with the system message). -/
def compressContext (tok : String → Nat) (sysContent : String)
    (messages : List Message) : List Message :=
  match messages with
  | [] => []
  | system :: _ =>
    if totalTokens tok messages ≤ MAX_TOKENS ∧ messages.length ≤ MAX_MESSAGES then
      messages
    else
      let recent := sliceLast (MAX_MESSAGES - 1) messages
      updateSystemPromptMsgs sysContent (shrinkLoop tok (system :: recent))

/-! ## Task ledger -/

/-- One success criterion: `{criterion, verificationCommand, verified}`. -/
structure Criterion where
  criterion : String
  verificationCommand : Option String
  verified : Bool
deriving Repr, DecidableEq

/-- A task record as built by `addTask`.  The `Date` timestamps are modelled
as abstract `Nat` clock readings. -/
structure Task where
  id : String
  description : String
  steps : List String
  successCriteria : List Criterion
  verificationSteps : List String
  status : String
  createdAt : Nat
  updatedAt : Nat
  result : Option String
deriving Repr, DecidableEq

/-- The module-level `tasks` object with its status buckets.  The `current`
field is initialised to `null` and never assigned in the source. -/
structure Tasks where
  current : Option String
  pending : List Task
  active : List Task
  completed : List Task
deriving Repr, DecidableEq

def emptyTasks : Tasks := { current := none, pending := [], active := [], completed := [] }

/-- Function `addTask(description, steps = [])`: build a fresh pending task and push it
onto `tasks.pending`.  `newId` is the externally generated random id and `now`
the clock reading. -/
def addTask (newId : String) (now : Nat) (description : String) (steps : List String)
    (tasks : Tasks) : Task × Tasks :=
  let task : Task :=
    { id := newId, description := description, steps := steps,
      successCriteria := [], verificationSteps := [],
      status := "pending", createdAt := now, updatedAt := now, result := none }
  (task, { tasks with pending := tasks.pending ++ [task] })

/-- The spread `[...tasks.pending, ...tasks.active, ...tasks.completed]`. -/
def allTasks (tasks : Tasks) : List Task :=
  tasks.pending ++ tasks.active ++ tasks.completed

/-- Lookup `.find(t => t.id === taskId)` over the concatenated buckets. -/
def findTask (tasks : Tasks) (taskId : String) : Option Task :=
  (allTasks tasks).find? (fun t => t.id == taskId)

/-- Apply `f` to the first element of the list whose id matches; `none` when
no element matches.  (The JavaScript mutates the object returned by `find`;
with ids unique this is the same thing.) -/
def modifyFirstTask (taskId : String) (f : Task → Task) : List Task → Option (List Task)
  | [] => none
  | t :: ts =>
    if t.id == taskId then some (f t :: ts)
    else
      match modifyFirstTask taskId f ts with
      | some ts' => some (t :: ts')
      | none => none

/-- Mutate-in-place of the task found by `findTask`, searching the buckets in
concatenation order.  Returns the updated ledger and whether a task was found. -/
def modifyTask (taskId : String) (f : Task → Task) (tasks : Tasks) : Tasks × Bool :=
  match modifyFirstTask taskId f tasks.pending with
  | some p => ({ tasks with pending := p }, true)
  | none =>
    match modifyFirstTask taskId f tasks.active with
    | some a => ({ tasks with active := a }, true)
    | none =>
      match modifyFirstTask taskId f tasks.completed with
      | some c => ({ tasks with completed := c }, true)
      | none => (tasks, false)

/-- Function `addSuccessCriterion(taskId, criterion, verificationCommand = null)`
(agent.js lines 353-365): find the task in any bucket, push an unverified
criterion, stamp `updatedAt`; returns whether the task was found. -/
def addSuccessCriterion (taskId : String) (criterion : String)
    (verificationCommand : Option String) (now : Nat) (tasks : Tasks) : Tasks × Bool :=
  modifyTask taskId
    (fun t =>
      { t with
        successCriteria := t.successCriteria ++
          [{ criterion := criterion, verificationCommand := verificationCommand,
             verified := false }],
        updatedAt := now })
    tasks

/-- Function `verifyTaskCompletion(taskId)` (agent.js lines 367-378): `false` when the
task is not found or has no criteria; otherwise
`successCriteria.every(c => c.verified === true)`. -/
def verifyTaskCompletion (tasks : Tasks) (taskId : String) : Bool :=
  match findTask tasks taskId with
  | none => false
  | some task =>
    if task.successCriteria.length == 0 then false
    else task.successCriteria.all (fun c => c.verified == true)

/-- Remove the first task of the list matching the id, returning it
together with the remainder. -/
def removeFirstTask (taskId : String) : List Task → Option (Task × List Task)
  | [] => none
  | t :: ts =>
    if t.id == taskId then some (t, ts)
    else
      match removeFirstTask taskId ts with
      | some (t', ts') => some (t', t :: ts')
      | none => none

/-- Function `updateTaskStatus(taskId, status, result = null)` (agent.js lines 380-406):
splice the task out of whichever bucket holds it (searching pending, active,
completed in that order), update `status`/`updatedAt`, conditionally set
`result` (JavaScript truthiness: `null` and `""` leave it untouched), and push
the task into the bucket matching the new status (`completed` and `failed`
share the completed bucket). -/
def updateTaskStatus (taskId status : String) (result : Option String) (now : Nat)
    (tasks : Tasks) : Tasks × Option Task :=
  let found : Option (Task × Tasks) :=
    match removeFirstTask taskId tasks.pending with
    | some (t, p) => some (t, { tasks with pending := p })
    | none =>
      match removeFirstTask taskId tasks.active with
      | some (t, a) => some (t, { tasks with active := a })
      | none =>
        match removeFirstTask taskId tasks.completed with
        | some (t, c) => some (t, { tasks with completed := c })
        | none => none
  match found with
  | none => (tasks, none)
  | some (t, rest) =>
    let t :=
      { t with
        status := status, updatedAt := now,
        result :=
          match result with
          | some r => if r == "" then t.result else some r
          | none => t.result }
    let tasks' :=
      if status == "pending" then { rest with pending := rest.pending ++ [t] }
      else if status == "active" then { rest with active := rest.active ++ [t] }
      else if status == "completed" || status == "failed" then
        { rest with completed := rest.completed ++ [t] }
      else rest
    (tasks', some t)

/-- Function `getActiveTask()`: the most recently activated task,
`tasks.active[tasks.active.length - 1]`. -/
def getActiveTask (tasks : Tasks) : Option Task :=
  tasks.active.getLast?

/-! ## Shell executor and `runCommand` -/

/-- The outcome the external `exec` collaborator hands to the callback:
`err` (modelled by its message, `some` exactly on non-zero exit), `stdout`
and `stderr`. -/
structure ExecOutcome where
  errMsg : Option String
  stdout : String
  stderr : String
deriving Repr, DecidableEq

/-- The object `runCommand` resolves with. -/
structure CmdResult where
  success : Bool
  output : String
  error : Option String
  command : String
deriving Repr, DecidableEq

/-- One `attempt(retryCount)` of `runCommand` (agent.js lines 511-539).
`ex i` is the outcome of the `i`-th execution of the command.  `remaining`
is `maxRetries - retryCount`, so `remaining > 0` iff
`retryCount < maxRetries` (this turns the recursive-closure-with-timer into
structural recursion).  Besides the resolved result, the translation returns
the number of times the command was executed and the list of delays
(`1000 * (retryCount + 1)` milliseconds) slept between consecutive
executions. -/
def runCommandAttempt (ex : Nat → ExecOutcome) (command : String) :
    Nat → Nat → CmdResult × Nat × List Nat
  | remaining, retryCount =>
    let o := ex retryCount
    match o.errMsg with
    | none =>
      ({ success := true, output := o.stdout, error := none, command := command }, 1, [])
    | some msg =>
      match remaining with
      | rem + 1 =>
        let r := runCommandAttempt ex command rem (retryCount + 1)
        (r.1, r.2.1 + 1, 1000 * (retryCount + 1) :: r.2.2)
      | 0 =>
        ({ success := false,
           output := if o.stderr == "" then msg else o.stderr,
           error := some msg, command := command }, 1, [])

/-- Function `runCommand(command, maxRetries = 3)`: start at `retryCount = 0`. -/
def runCommand (ex : Nat → ExecOutcome) (command : String) (maxRetries : Nat) :
    CmdResult × Nat × List Nat :=
  runCommandAttempt ex command maxRetries 0

/-- The default `maxRetries` of `runCommand`. -/
def defaultMaxRetries : Nat := 3

/-! ## Action protocol and orchestrator step loop -/

/-- The tagged action records recognised by the dispatcher, plus the tags it
does not handle.  `read` stands for the wire tag `"read"` (advertised in the
system prompt) and `other` for any remaining tag; for both, the dispatcher has
no branch and falls through to the final `// Unknown action, break`. -/
inductive Action where
  | define_criteria (taskId : String) (criteria : List String)
  | verify (taskId : String) (criterionIndex : Nat) (command : String)
  | run (command : String)
  | read (file : String)
  | patch (file : String) (content : String)
  | commit (message : String)
  | other (tag : String)
deriving Repr, DecidableEq

/-- A completion reply: the raw text plus the result of the code-fence
extraction and `JSON.parse` pipeline (`none` when the reply is
conversational). -/
structure Reply where
  text : String
  parsed : Option Action
deriving Repr, DecidableEq

/-- The mutable module-level state touched by the loop. -/
structure AgentState where
  messages : List Message
  tasks : Tasks
deriving Repr, DecidableEq

/-- Externally observable side effects issued by the executor: each
`runCommand` call (command, number of executions, delays), each
`applyPatch` write, and each `commitChanges`. -/
structure Effects where
  cmdRuns : List (String × Nat × List Nat)
  patches : List (String × String)
  commits : List String
deriving Repr, DecidableEq

def noEffects : Effects := { cmdRuns := [], patches := [], commits := [] }

/-- The external collaborators of one `processInput` call:
`reply n` is the completion returned in step `n`; `ex n i` the outcome of the
`i`-th execution of the shell command launched in step `n`; `confirmAns n`
the interactive confirmation answer typed in step `n`; `now n` the clock;
`sysPrompt ts` the system-prompt text regenerated by `updateSystemPrompt`
from ledger state `ts` (the environment part — cwd, platform, shell — is
fixed for the process and folded into this function); `tok` the tokenizer;
`autoApprove` the `AUTO_APPROVE` environment toggle. -/
structure Oracle where
  reply : Nat → Reply
  ex : Nat → Nat → ExecOutcome
  confirmAns : Nat → String
  now : Nat → Nat
  sysPrompt : Tasks → String
  tok : String → Nat
  autoApprove : Bool

/-- Function `updateSystemPrompt()` at the state level. -/
def updateSystemPrompt (o : Oracle) (st : AgentState) : AgentState :=
  { st with messages := updateSystemPromptMsgs (o.sysPrompt st.tasks) st.messages }

/-- Function `compressContext()` at the state level (its trailing
`updateSystemPrompt()` regenerates the prompt from the current ledger). -/
def compressState (o : Oracle) (st : AgentState) : AgentState :=
  { st with messages := compressContext o.tok (o.sysPrompt st.tasks) st.messages }

/-- Append `messages.push(...)` of a role/content pair. -/
def pushMsg (role content : String) (st : AgentState) : AgentState :=
  { st with messages := st.messages ++ [{ role := role, content := content }] }

/-- The completion-signal scan over a conversational reply
(agent.js lines 638-641). -/
def completionWords (reply : String) : Bool :=
  strIncludes (jsToLower reply) "task complete" || strIncludes (jsToLower reply) "finished" ||
  strIncludes (jsToLower reply) "done" || strIncludes (jsToLower reply) "completed"

/-- The failure-signal scan (agent.js lines 651-653). -/
def failureWords (reply : String) : Bool :=
  strIncludes (jsToLower reply) "failed" || strIncludes (jsToLower reply) "error" ||
  strIncludes (jsToLower reply) "cannot"

/-- Check `!currentTask.successCriteria || currentTask.successCriteria.length === 0`
read through the ledger (the live object reference always sits in exactly one
bucket, so the id lookup is equivalent; an array is always truthy, so only the
length test matters). -/
def criteriaEmptyOf (tasks : Tasks) (taskId : String) : Bool :=
  match findTask tasks taskId with
  | some t => t.successCriteria.isEmpty
  | none => false

/-- Replace the element at `idx` by `f` of it (out-of-range: unchanged). -/
def listModify (f : α → α) : Nat → List α → List α
  | _, [] => []
  | 0, a :: as => f a :: as
  | i + 1, a :: as => a :: listModify f i as

/-- The `verificationPassed` check of the VerifyCriterion handler
(agent.js lines 687-689): reported success and a lowercased output containing
neither "error" nor "not found". -/
def verificationPassed (result : CmdResult) : Bool :=
  result.success &&
  !(strIncludes (jsToLower result.output) "error") &&
  !(strIncludes (jsToLower result.output) "not found")

/-- The result of one iteration of the `while (steps < maxSteps)` body:
the new state, the accumulated effects, and whether the iteration executed
`break`. -/
structure StepResult where
  st : AgentState
  eff : Effects
  brk : Bool
deriving Repr

/-- One iteration of the step loop of `processInput` (agent.js lines
598-794), after `steps++`: pull the completion `o.reply n`, push the raw
reply, then dispatch on the parsed action.  `cur` is the id of the
`currentTask` binding fixed before the loop (`none` when it is `null`). -/
def doStep (o : Oracle) (n : Nat) (cur : Option String) (st0 : AgentState)
    (eff : Effects) : StepResult :=
  let r := o.reply n
  let st := pushMsg "assistant" r.text st0
  match r.parsed with
  | none =>
    -- conversational reply: compress, refresh prompt, evaluate signals
    let st := updateSystemPrompt o (compressState o st)
    match cur with
    | some cid =>
      if verifyTaskCompletion st.tasks cid then
        ⟨{ st with tasks := (updateTaskStatus cid "completed" (some r.text) (o.now n) st.tasks).1 },
         eff, true⟩
      else if completionWords r.text && criteriaEmptyOf st.tasks cid then
        ⟨{ st with tasks := (updateTaskStatus cid "completed" (some r.text) (o.now n) st.tasks).1 },
         eff, true⟩
      else if failureWords r.text then
        ⟨{ st with tasks := (updateTaskStatus cid "failed" (some r.text) (o.now n) st.tasks).1 },
         eff, false⟩
      else ⟨st, eff, false⟩
    | none => ⟨st, eff, false⟩
  | some (Action.define_criteria tid cs) =>
    let st :=
      match cur with
      | some cid =>
        if tid == cid then
          let tasks :=
            cs.foldl (fun ts c => (addSuccessCriterion cid c none (o.now n) ts).1) st.tasks
          pushMsg "assistant"
            ("Success criteria defined for task: " ++ String.intercalate "; " cs)
            { st with tasks := tasks }
        else st
      | none => st
    ⟨updateSystemPrompt o (compressState o st), eff, false⟩
  | some (Action.verify tid idx cmd) =>
    match cur with
    | some cid =>
      if tid == cid then
        let rc := runCommand (o.ex n) cmd 3
        let eff := { eff with cmdRuns := eff.cmdRuns ++ [(cmd, rc.2.1, rc.2.2)] }
        let result := rc.1
        let passed := verificationPassed result
        if passed then
          let tasks1 := (modifyTask cid
            (fun t =>
              if idx < t.successCriteria.length then
                { t with successCriteria :=
                    listModify (fun c => { c with verified := true }) idx t.successCriteria }
              else t) st.tasks).1
          if verifyTaskCompletion tasks1 cid then
            ⟨{ st with tasks :=
                (updateTaskStatus cid "completed" (some "All success criteria verified")
                  (o.now n) tasks1).1 },
             eff, true⟩
          else ⟨updateSystemPrompt o (compressState o { st with tasks := tasks1 }), eff, false⟩
        else
          let st := pushMsg "assistant"
            ("Verification failed for criterion: " ++ toString idx ++ "\nOutput: " ++ result.output)
            st
          ⟨updateSystemPrompt o (compressState o st), eff, false⟩
      else ⟨updateSystemPrompt o (compressState o st), eff, false⟩
    | none => ⟨updateSystemPrompt o (compressState o st), eff, false⟩
  | some (Action.run cmd) =>
    if !o.autoApprove && o.confirmAns n != "y" then
      -- user declined: demote the current task and leave the loop
      match cur with
      | some cid =>
        ⟨{ st with tasks := (updateTaskStatus cid "pending" none (o.now n) st.tasks).1 },
         eff, true⟩
      | none => ⟨st, eff, true⟩
    else
      let rc := runCommand (o.ex n) cmd 3
      let eff := { eff with cmdRuns := eff.cmdRuns ++ [(cmd, rc.2.1, rc.2.2)] }
      let result := rc.1
      if !result.success then
        let st := pushMsg "assistant"
          ("Command failed after retries: " ++ cmd ++ "\nError: " ++ result.output ++
           "\nPlease suggest an alternative approach or fix the command.") st
        let st :=
          match cur with
          | some cid =>
            { st with tasks :=
                (updateTaskStatus cid "failed" (some ("Command failed: " ++ cmd))
                  (o.now n) st.tasks).1 }
          | none => st
        ⟨updateSystemPrompt o (compressState o st), eff, false⟩
      else
        let st := pushMsg "assistant" ("Command executed successfully:\n" ++ result.output) st
        ⟨updateSystemPrompt o (compressState o st), eff, false⟩
  | some (Action.patch file content) =>
    if !o.autoApprove && o.confirmAns n != "y" then
      match cur with
      | some cid =>
        ⟨{ st with tasks := (updateTaskStatus cid "pending" none (o.now n) st.tasks).1 },
         eff, true⟩
      | none => ⟨st, eff, true⟩
    else
      let eff := { eff with patches := eff.patches ++ [(file, content)] }
      let st := pushMsg "assistant" ("Patched " ++ file) st
      ⟨updateSystemPrompt o (compressState o st), eff, false⟩
  | some (Action.commit message) =>
    let eff := { eff with commits := eff.commits ++ [message] }
    let st := pushMsg "assistant" "Committed changes." st
    ⟨updateSystemPrompt o (compressState o st), eff, false⟩
  | some (Action.read _) => ⟨st, eff, true⟩
  | some (Action.other _) => ⟨st, eff, true⟩

/-- The final state of a `processInput` call's loop: state, effects, and the
value of the `steps` counter when the loop exited. -/
structure LoopResult where
  state : AgentState
  eff : Effects
  steps : Nat
deriving Repr

/-- The `while (steps < maxSteps)` loop.  `fuel` is `maxSteps - steps`, so the
loop guard `steps < maxSteps` holds exactly when `fuel > 0`; on `break` at
step `n` the counter is `n`, on exhaustion it is `maxSteps`. -/
def stepLoopAux (o : Oracle) (cur : Option String) :
    Nat → Nat → AgentState → Effects → LoopResult
  | 0, steps, st, eff => ⟨st, eff, steps⟩
  | fuel + 1, steps, st, eff =>
    let n := steps + 1
    let r := doStep o n cur st eff
    if r.brk then ⟨r.st, r.eff, n⟩
    else stepLoopAux o cur fuel n r.st r.eff

def stepLoop (o : Oracle) (maxSteps : Nat) (cur : Option String)
    (st : AgentState) (eff : Effects) : LoopResult :=
  stepLoopAux o cur maxSteps 0 st eff

/-- The new-task classifier at the top of `processInput`
(agent.js lines 574-579). -/
def isNewTask (input : String) : Bool :=
  !(jsStartsWith input "/") &&
    (input.length > 5 ||
     strIncludes (jsToLower input) "create" ||
     strIncludes (jsToLower input) "delete" ||
     strIncludes (jsToLower input) "modify" ||
     strIncludes (jsToLower input) "check")

/-- The entry phase of `processInput` (agent.js lines 573-594): classify the
input, create-and-activate a task or reuse the most recently activated one,
push the user message, refresh the system prompt, compress.  `freshId` is the
id the external generator would hand to `addTask`. -/
def entryPhase (o : Oracle) (freshId : String) (input : String) (st : AgentState) :
    Option String × AgentState :=
  let (cur, tasks) :=
    if isNewTask input then
      let (task, ts1) := addTask freshId (o.now 0) input [] st.tasks
      (some task.id, (updateTaskStatus task.id "active" none (o.now 0) ts1).1)
    else
      ((getActiveTask st.tasks).map (fun t => t.id), st.tasks)
  let st := { st with tasks := tasks }
  let st := pushMsg "user" input st
  let st := updateSystemPrompt o st
  let st := compressState o st
  (cur, st)

/-- Function `processInput(input, maxSteps = 10)` (agent.js lines 552-805).  The slash
commands return early (`/exit` terminates the process, so no further state
transition is modelled for it); otherwise the entry phase runs, then the step
loop, then the step-budget check that demotes the current task to pending
when the counter reached `maxSteps`, then a final `updateSystemPrompt()`. -/
def processInput (o : Oracle) (freshId : String) (maxSteps : Nat) (input : String)
    (st : AgentState) : AgentState × Effects × Nat :=
  if input == "/exit" then (st, noEffects, 0)
  else if input == "/reset" then
    (updateSystemPrompt o { messages := st.messages.take 1, tasks := emptyTasks },
     noEffects, 0)
  else if input == "/pwd" then (st, noEffects, 0)
  else if input == "/tasks" then (st, noEffects, 0)
  else
    let (cur, st1) := entryPhase o freshId input st
    let r := stepLoop o maxSteps cur st1 noEffects
    let st2 :=
      if maxSteps ≤ r.steps then
        match cur with
        | some cid =>
          { r.state with tasks :=
              (updateTaskStatus cid "pending" none (o.now (maxSteps + 1)) r.state.tasks).1 }
        | none => r.state
      else r.state
    (updateSystemPrompt o st2, r.eff, r.steps)

/-! ## Projections and concrete scenarios used in the theorems below -/

/-- The status of the ledger task found by id. -/
def taskStatusOf (tasks : Tasks) (taskId : String) : Option String :=
  (findTask tasks taskId).map Task.status

/-- The criteria list of the ledger task found by id. -/
def taskCriteriaOf (tasks : Tasks) (taskId : String) : Option (List Criterion) :=
  (findTask tasks taskId).map Task.successCriteria

/-- How many times each `runCommand` call executed its command. -/
def execCounts (eff : Effects) : List Nat := eff.cmdRuns.map (fun r => r.2.1)

/-- A shell executor whose command always exits non-zero. -/
def allFailExec : Nat → ExecOutcome := fun _ => ⟨some "spawn failure", "", "exit status 1"⟩

/-- An oracle with auto-approval on, a constant clock, a constant regenerated
prompt, and a tokenizer that never triggers compression. -/
def mkOracle (replies : Nat → Reply) (ex0 : Nat → Nat → ExecOutcome) : Oracle :=
  { reply := replies, ex := ex0, confirmAns := fun _ => "y", now := fun _ => 7,
    sysPrompt := fun _ => "sys", tok := fun _ => 0, autoApprove := true }

/-- An active task with no criteria. -/
def taskNoCrit : Task :=
  { id := "T1", description := "demo task", steps := [], successCriteria := [],
    verificationSteps := [], status := "active", createdAt := 0, updatedAt := 0,
    result := none }

/-- An active task with one unverified criterion. -/
def taskOneCrit : Task :=
  { taskNoCrit with successCriteria := [{ criterion := "the file exists",
                                          verificationCommand := none, verified := false }] }

/-- A state whose ledger holds exactly the given active task. -/
def stWith (t : Task) : AgentState :=
  { messages := [{ role := "system", content := "sys" }],
    tasks := { current := none, pending := [], active := [t], completed := [] } }

def oC1 : Oracle :=
  mkOracle (fun _ => ⟨"read it", some (Action.read "notes.txt")⟩) (fun _ _ => ⟨none, "", ""⟩)

def oC2 : Oracle :=
  mkOracle (fun _ => ⟨"verify it", some (Action.verify "T1" 0 "test -f out.txt")⟩) (fun _ => allFailExec)

def oC3 : Oracle :=
  mkOracle (fun _ => ⟨"run it", some (Action.run "make build")⟩) (fun _ => allFailExec)

def oC4 : Oracle :=
  mkOracle
    (fun n =>
      match n with
      | 1 => ⟨"an unexpected error occurred", none⟩
      | _ => ⟨"define", some (Action.define_criteria "T1" ["output file exists"])⟩)
    (fun _ _ => ⟨none, "", ""⟩)

def oC6 : Oracle :=
  mkOracle
    (fun n =>
      match n with
      | 1 => ⟨"the build failed", none⟩
      | _ => ⟨"hello", none⟩)
    (fun _ _ => ⟨none, "", ""⟩)

def oC10 : Oracle :=
  mkOracle (fun _ => ⟨"done", none⟩) (fun _ _ => ⟨none, "", ""⟩)

/-- The task as it sits in the completed bucket right after the oC10 scenario
completes it on the final permitted step. -/
def c10CompletedTask : Task :=
  { id := "T9", description := "create file x", steps := [], successCriteria := [],
    verificationSteps := [], status := "completed", createdAt := 7, updatedAt := 7,
    result := some "done" }

/-- A long-finished task sitting in the completed bucket. -/
def oldCompletedTask : Task :=
  { id := "TC", description := "old finished task", steps := [],
    successCriteria := [{ criterion := "archived", verificationCommand := none,
                          verified := true }],
    verificationSteps := [], status := "completed", createdAt := 0, updatedAt := 0,
    result := none }

/-- A state whose ledger holds only `oldCompletedTask`, already completed. -/
def stWithCompleted : AgentState :=
  { messages := [{ role := "system", content := "sys" }],
    tasks := { current := none, pending := [], active := [],
               completed := [oldCompletedTask] } }

/-- A state with an empty ledger. -/
def stEmpty : AgentState :=
  { messages := [{ role := "system", content := "sys" }], tasks := emptyTasks }

/-- Messages used by the C8 compression scenario: a short system message
followed by twenty one-character user messages (so the message-count ceiling
is exceeded while the token total is tiny). -/
def msgsC8 : List Message :=
  { role := "system", content := "s" } :: List.replicate 20 { role := "user", content := "u" }

/-- A regenerated system prompt of six thousand characters, as produced when
the most recently activated task has a very long description. -/
def bigPrompt : String := String.mk (List.replicate 6000 'a')

/-! # Theorems -/

/-! ## Small facts about the state plumbing -/

@[simp] theorem tasks_pushMsg (r c : String) (st : AgentState) :
    (pushMsg r c st).tasks = st.tasks := rfl

@[simp] theorem tasks_compressState (o : Oracle) (st : AgentState) :
    (compressState o st).tasks = st.tasks := rfl

@[simp] theorem tasks_updateSystemPrompt (o : Oracle) (st : AgentState) :
    (updateSystemPrompt o st).tasks = st.tasks := rfl

/-! ## C9 -/

/-- C9: `verifyTaskCompletion` on a task found in the ledger is `true` iff the
criteria list is non-empty and every criterion's verified flag is set; in
particular it is `false` for a task with zero criteria, whatever the
conversation says. -/
theorem c9_verifyTaskCompletion_iff (tasks : Tasks) (task : Task)
    (hfind : findTask tasks task.id = some task) :
    verifyTaskCompletion tasks task.id = true ↔
      (task.successCriteria ≠ [] ∧ ∀ c ∈ task.successCriteria, c.verified = true) := by
  unfold verifyTaskCompletion
  rw [hfind]
  cases hsc : task.successCriteria with
  | nil => simp [hsc]
  | cons c cs => simp [hsc, List.all_eq_true]

/-- Witness for C9 at a concrete one-criterion ledger. -/
theorem c9_verifyTaskCompletion_iff_witness :
    verifyTaskCompletion (stWith taskOneCrit).tasks taskOneCrit.id = true ↔
      (taskOneCrit.successCriteria ≠ [] ∧
       ∀ c ∈ taskOneCrit.successCriteria, c.verified = true) :=
  c9_verifyTaskCompletion_iff (stWith taskOneCrit).tasks taskOneCrit (by decide)

/-! ## C1 -/

/-- C1: a parsed `{"action": "read", "file": ...}` record reaches no handler:
the step breaks out of the loop, no shell command is launched, no patch or
commit is recorded, the ledger is untouched, and the only context change is
the raw reply itself — the file is never read and no result (success or
error text) is produced. -/
theorem c1_read_action_unhandled :
    (doStep oC1 1 (some "T1") (stWith taskNoCrit) noEffects).brk = true ∧
    (doStep oC1 1 (some "T1") (stWith taskNoCrit) noEffects).eff = noEffects ∧
    (doStep oC1 1 (some "T1") (stWith taskNoCrit) noEffects).st.tasks
      = (stWith taskNoCrit).tasks ∧
    (doStep oC1 1 (some "T1") (stWith taskNoCrit) noEffects).st.messages
      = (stWith taskNoCrit).messages ++ [{ role := "assistant", content := "read it" }] := by
  decide

/-! ## C5 -/

/-- C5 counterexample: with the default `maxRetries = 3`, a command that
fails every time is executed four times — not three — before
`success = false` is surfaced. -/
theorem c5_counterexample :
    (runCommand allFailExec "make build" defaultMaxRetries).2.1 = 4 ∧
    (runCommand allFailExec "make build" defaultMaxRetries).1.success = false ∧
    ¬ (runCommand allFailExec "make build" defaultMaxRetries).2.1 = 3 := by
  decide

/-- Closed form of `runCommandAttempt` when every execution from `rc` to
`rc + rem` fails. -/
theorem runCommandAttempt_all_fail (ex : Nat → ExecOutcome) (command : String) :
    ∀ rem rc, (∀ i, rc ≤ i → i ≤ rc + rem → ((ex i).errMsg).isSome = true) →
      runCommandAttempt ex command rem rc
        = ({ success := false,
             output := if (ex (rc + rem)).stderr == "" then ((ex (rc + rem)).errMsg).getD ""
                       else (ex (rc + rem)).stderr,
             error := (ex (rc + rem)).errMsg, command := command },
           rem + 1,
           (List.range rem).map (fun k => 1000 * (rc + k + 1))) := by
  intro rem
  induction rem with
  | zero =>
    intro rc h
    obtain ⟨msg, hm⟩ := Option.isSome_iff_exists.mp (h rc le_rfl (by omega))
    simp only [runCommandAttempt, hm, Nat.add_zero, List.range_zero, List.map_nil]
    simp [hm]
  | succ rem ih =>
    intro rc h
    obtain ⟨msg, hm⟩ := Option.isSome_iff_exists.mp (h rc le_rfl (by omega))
    have hrec := ih (rc + 1) (fun i h1 h2 => h i (by omega) (by omega))
    have hn : rc + 1 + rem = rc + (rem + 1) := by omega
    simp only [runCommandAttempt, hm, hrec, hn, Prod.mk.injEq]
    refine ⟨trivial, trivial, ?_⟩
    rw [List.range_succ_eq_map, List.map_cons, List.map_map]
    simp only [List.cons.injEq]
    refine ⟨by norm_num, ?_⟩
    apply List.map_congr_left
    intro a _
    simp only [Function.comp_apply]
    omega

/-- C5 (amended): when the command exits non-zero on every attempt,
`runCommand` reports `success = false` after exactly `maxRetries + 1`
executions (the initial attempt plus `maxRetries` retries), sleeps
`1000 * k` ms before the `k`-th retry (linearly increasing), and surfaces
only the final attempt's failure text (its stderr, or the error message when
stderr is empty). -/
theorem c5_retry_schedule (ex : Nat → ExecOutcome) (command : String) (maxRetries : Nat)
    (hfail : ∀ i ∈ List.range (maxRetries + 1), ((ex i).errMsg).isSome = true) :
    (runCommand ex command maxRetries).1.success = false ∧
    (runCommand ex command maxRetries).2.1 = maxRetries + 1 ∧
    (runCommand ex command maxRetries).2.2
      = (List.range maxRetries).map (fun k => 1000 * (k + 1)) ∧
    (runCommand ex command maxRetries).1.output
      = (if (ex maxRetries).stderr == "" then ((ex maxRetries).errMsg).getD ""
         else (ex maxRetries).stderr) := by
  have h := runCommandAttempt_all_fail ex command maxRetries 0
    (fun i h1 h2 => hfail i (List.mem_range.mpr (by omega)))
  unfold runCommand
  rw [h]
  refine ⟨rfl, rfl, ?_, ?_⟩
  · apply List.map_congr_left
    intro a _
    omega
  · simp

/-- Witness for C5 (amended) at the always-failing executor. -/
theorem c5_retry_schedule_witness :
    (runCommand allFailExec "make build" 3).1.success = false ∧
    (runCommand allFailExec "make build" 3).2.1 = 3 + 1 ∧
    (runCommand allFailExec "make build" 3).2.2
      = (List.range 3).map (fun k => 1000 * (k + 1)) ∧
    (runCommand allFailExec "make build" 3).1.output
      = (if (allFailExec 3).stderr == "" then ((allFailExec 3).errMsg).getD ""
         else (allFailExec 3).stderr) :=
  c5_retry_schedule allFailExec "make build" 3 (by decide)

/-! ## Compression lemmas, C7 and C8 -/

theorem totalTokens_cons (tok : String → Nat) (m : Message) (l : List Message) :
    totalTokens tok (m :: l) = countMessageTokens tok m + totalTokens tok l := by
  simp [totalTokens]

theorem length_updateSystemPromptMsgs (c : String) (l : List Message) :
    (updateSystemPromptMsgs c l).length = l.length := by
  induction l with
  | nil => rfl
  | cons m rest ih =>
    simp only [updateSystemPromptMsgs]
    split
    · simp
    · simp [ih]

theorem head?_updateSystemPromptMsgs (c : String) (l : List Message) (m : Message)
    (hm : l.head? = some m) (hrole : m.role = "system") :
    (updateSystemPromptMsgs c l).head? = some { m with content := c } := by
  cases l with
  | nil => simp at hm
  | cons a rest =>
    simp only [List.head?_cons, Option.some.injEq] at hm
    subst hm
    simp [updateSystemPromptMsgs, hrole]

theorem shrinkLoopAux_length_le (tok : String → Nat) :
    ∀ fuel l, (shrinkLoopAux tok fuel l).length ≤ l.length := by
  intro fuel
  induction fuel with
  | zero => intro l; exact le_rfl
  | succ fuel ih =>
    intro l
    rcases l with _ | ⟨m0, _ | ⟨m1, _ | ⟨m2, rest⟩⟩⟩ <;> simp only [shrinkLoopAux] <;>
      try exact le_rfl
    split
    · exact le_trans (ih (m0 :: m2 :: rest)) (by simp)
    · exact le_rfl

theorem shrinkLoopAux_head? (tok : String → Nat) :
    ∀ fuel l, (shrinkLoopAux tok fuel l).head? = l.head? := by
  intro fuel
  induction fuel with
  | zero => intro l; rfl
  | succ fuel ih =>
    intro l
    rcases l with _ | ⟨m0, _ | ⟨m1, _ | ⟨m2, rest⟩⟩⟩ <;> simp only [shrinkLoopAux] <;>
      try rfl
    split
    · rw [ih (m0 :: m2 :: rest)]
      rfl
    · rfl

theorem shrinkLoopAux_two_le (tok : String → Nat) :
    ∀ fuel l, 2 ≤ l.length → 2 ≤ (shrinkLoopAux tok fuel l).length := by
  intro fuel
  induction fuel with
  | zero => intro l h; exact h
  | succ fuel ih =>
    intro l h
    rcases l with _ | ⟨m0, _ | ⟨m1, _ | ⟨m2, rest⟩⟩⟩ <;> simp only [shrinkLoopAux] <;>
      try exact h
    split
    · exact ih (m0 :: m2 :: rest) (by simp)
    · exact h

/-- The shrink loop stops only when the token total is within the budget or
at most two messages remain. -/
theorem shrinkLoopAux_post (tok : String → Nat) :
    ∀ fuel l, l.length ≤ fuel + 2 →
      totalTokens tok (shrinkLoopAux tok fuel l) ≤ MAX_TOKENS ∨
      (shrinkLoopAux tok fuel l).length ≤ 2 := by
  intro fuel
  induction fuel with
  | zero =>
    intro l h
    right
    simpa [shrinkLoopAux] using h
  | succ fuel ih =>
    intro l h
    rcases l with _ | ⟨m0, _ | ⟨m1, _ | ⟨m2, rest⟩⟩⟩ <;> simp only [shrinkLoopAux] <;>
      try (right; simp; done)
    split
    · apply ih (m0 :: m2 :: rest)
      simp only [List.length_cons] at h ⊢
      omega
    · left
      omega

theorem length_sliceLast (k : Nat) (l : List α) :
    (sliceLast k l).length = l.length - (l.length - k) := by
  simp [sliceLast]

/-- C7: for any context whose first message is the system message, after
`compressContext` runs the message count is at most `MAX_MESSAGES` and the
message at index 0 still has role `"system"`. -/
theorem c7_compress_bounds (tok : String → Nat) (c : String) (m0 : Message)
    (rest : List Message) (hrole : m0.role = "system") :
    (compressContext tok c (m0 :: rest)).length ≤ MAX_MESSAGES ∧
    ∃ m, (compressContext tok c (m0 :: rest)).head? = some m ∧ m.role = "system" := by
  simp only [compressContext]
  split
  · next h => exact ⟨h.2, m0, rfl, hrole⟩
  · next h =>
    have hslice : (sliceLast (MAX_MESSAGES - 1) (m0 :: rest)).length
        = (m0 :: rest).length - ((m0 :: rest).length - (MAX_MESSAGES - 1)) :=
      length_sliceLast _ _
    constructor
    · rw [length_updateSystemPromptMsgs]
      calc (shrinkLoop tok (m0 :: sliceLast (MAX_MESSAGES - 1) (m0 :: rest))).length
          ≤ (m0 :: sliceLast (MAX_MESSAGES - 1) (m0 :: rest)).length :=
            shrinkLoopAux_length_le tok _ _
        _ ≤ MAX_MESSAGES := by
            have h20 : MAX_MESSAGES = 20 := rfl
            simp only [List.length_cons, hslice]
            omega
    · refine ⟨{ m0 with content := c }, ?_, hrole⟩
      apply head?_updateSystemPromptMsgs
      · rw [shrinkLoop, shrinkLoopAux_head?]
        rfl
      · exact hrole

/-- Witness for C7 at a one-message context. -/
theorem c7_compress_bounds_witness :
    (compressContext (fun _ => 0) "sys" [{ role := "system", content := "sys" }]).length
      ≤ MAX_MESSAGES ∧
    ∃ m, (compressContext (fun _ => 0) "sys"
            [{ role := "system", content := "sys" }]).head? = some m ∧ m.role = "system" :=
  c7_compress_bounds (fun _ => 0) "sys" { role := "system", content := "sys" } [] rfl

/-- C8 counterexample: 21 tiny messages trigger compression; the shrink loop
finishes far under the token budget, but the trailing `updateSystemPrompt()`
swaps in a regenerated 6000-character prompt (a very long active-task
description), leaving the context above `MAX_TOKENS` with twenty messages —
neither disjunct of the claim holds. -/
theorem c8_counterexample :
    ¬ (totalTokens String.length (compressContext String.length bigPrompt msgsC8) ≤ MAX_TOKENS ∨
       (compressContext String.length bigPrompt msgsC8).length = 2) := by
  have hc : compressContext String.length bigPrompt msgsC8
      = { role := "system", content := bigPrompt } ::
        List.replicate 19 { role := "user", content := "u" } := by rfl
  rw [hc]
  intro hor
  have hbig : bigPrompt.length = 6000 := by
    rw [bigPrompt, String.length_mk, List.length_replicate]
  have hcount : countMessageTokens String.length { role := "system", content := bigPrompt }
      = 6008 := by
    unfold countMessageTokens
    rw [String.length_append, String.length_append, hbig]
    decide
  have hu : countMessageTokens String.length { role := "user", content := "u" } = 7 := by decide
  rcases hor with hle | hlen
  · rw [totalTokens_cons, hcount] at hle
    have : totalTokens String.length
        (List.replicate 19 ({ role := "user", content := "u" } : Message)) = 133 := by
      unfold totalTokens
      rw [List.map_replicate, hu, List.sum_replicate]
      decide
    rw [this] at hle
    simp [MAX_TOKENS] at hle
  · simp [List.length_replicate] at hlen

/-- C8 (amended): when the system prompt regenerated by the trailing
`updateSystemPrompt()` costs no more tokens than the system message measured
during compression — in particular whenever it is unchanged — the ceiling
holds: after `compressContext` either `totalTokens ≤ MAX_TOKENS` or exactly
two messages remain.  (The counterexample shows the unrestricted claim fails
when the regenerated prompt is larger.) -/
theorem c8_token_ceiling (tok : String → Nat) (c : String) (m0 : Message)
    (rest : List Message) (hrole : m0.role = "system")
    (hmono : tok ("system" ++ ": " ++ c) ≤ countMessageTokens tok m0) :
    totalTokens tok (compressContext tok c (m0 :: rest)) ≤ MAX_TOKENS ∨
    (compressContext tok c (m0 :: rest)).length = 2 := by
  simp only [compressContext]
  split
  · next h => exact Or.inl h.1
  · next h =>
    set L := m0 :: sliceLast (MAX_MESSAGES - 1) (m0 :: rest) with hL
    have hL2 : 2 ≤ L.length := by
      have h20 : MAX_MESSAGES = 20 := rfl
      rw [hL]
      simp only [List.length_cons, length_sliceLast, List.length_cons]
      omega
    have hS2 : 2 ≤ (shrinkLoop tok L).length := shrinkLoopAux_two_le tok _ _ hL2
    have hpost : totalTokens tok (shrinkLoop tok L) ≤ MAX_TOKENS ∨
        (shrinkLoop tok L).length ≤ 2 :=
      shrinkLoopAux_post tok _ _ (by omega)
    have hhead : (shrinkLoop tok L).head? = some m0 := by
      rw [shrinkLoop, shrinkLoopAux_head?, hL]
      rfl
    obtain ⟨tail, htail⟩ : ∃ tail, shrinkLoop tok L = m0 :: tail := by
      cases hS : shrinkLoop tok L with
      | nil => rw [hS] at hhead; simp at hhead
      | cons a t =>
        rw [hS] at hhead
        simp only [List.head?_cons, Option.some.injEq] at hhead
        exact ⟨t, by rw [hhead]⟩
    have hupd : updateSystemPromptMsgs c (shrinkLoop tok L)
        = { m0 with content := c } :: tail := by
      rw [htail]
      simp [updateSystemPromptMsgs, hrole]
    rw [hupd]
    have hle : totalTokens tok ({ m0 with content := c } :: tail)
        ≤ totalTokens tok (shrinkLoop tok L) := by
      rw [htail, totalTokens_cons, totalTokens_cons]
      have hcm : countMessageTokens tok { m0 with content := c }
          = tok ("system" ++ ": " ++ c) := by
        unfold countMessageTokens
        rw [show ({ m0 with content := c } : Message).role = m0.role from rfl, hrole]
      have hx : countMessageTokens tok { m0 with content := c }
          ≤ countMessageTokens tok m0 := by
        rw [hcm]; exact hmono
      exact Nat.add_le_add_right hx _
    rcases hpost with hp | hp
    · exact Or.inl (le_trans hle hp)
    · right
      have : (shrinkLoop tok L).length = 2 := le_antisymm hp hS2
      rw [htail] at this
      simp only [List.length_cons] at this ⊢
      omega

/-- Witness for C8 (amended): the regenerated prompt equals the measured
system content. -/
theorem c8_token_ceiling_witness :
    totalTokens String.length
      (compressContext String.length "s" [{ role := "system", content := "s" }]) ≤ MAX_TOKENS ∨
    (compressContext String.length "s" [{ role := "system", content := "s" }]).length = 2 :=
  c8_token_ceiling String.length "s" { role := "system", content := "s" } [] rfl (by decide)

/-! ## C2, C3, C4, C6: counterexamples -/

/-- C2 counterexample: a VerifyCriterion whose command keeps failing has its
command executed four times by the retrying `runCommand` — not exactly once. -/
theorem c2_counterexample :
    execCounts (doStep oC2 1 (some "T1") (stWith taskOneCrit) noEffects).eff = [4] ∧
    ¬ execCounts (doStep oC2 1 (some "T1") (stWith taskOneCrit) noEffects).eff = [1] := by
  decide

/-- C3 counterexample: after a Run action whose command fails on every
attempt, the active task's status is not left unchanged — the executor moves
it straight to `failed`. -/
theorem c3_counterexample :
    taskStatusOf (stWith taskNoCrit).tasks "T1" = some "active" ∧
    taskStatusOf (stepLoop oC3 1 (some "T1") (stWith taskNoCrit) noEffects).state.tasks "T1"
      = some "failed" ∧
    ¬ taskStatusOf (stepLoop oC3 1 (some "T1") (stWith taskNoCrit) noEffects).state.tasks "T1"
      = some "active" := by
  decide

/-- C4 counterexample: step 1 (a conversational reply containing "error")
moves the task to status `failed` with zero criteria; step 2's
DefineCriteria, still addressed to the same current task, appends a
criterion to the already-failed task. -/
theorem c4_counterexample :
    taskStatusOf (stepLoop oC4 1 (some "T1") (stWith taskNoCrit) noEffects).state.tasks "T1"
      = some "failed" ∧
    taskCriteriaOf (stepLoop oC4 1 (some "T1") (stWith taskNoCrit) noEffects).state.tasks "T1"
      = some [] ∧
    taskStatusOf (stepLoop oC4 2 (some "T1") (stWith taskNoCrit) noEffects).state.tasks "T1"
      = some "failed" ∧
    taskCriteriaOf (stepLoop oC4 2 (some "T1") (stWith taskNoCrit) noEffects).state.tasks "T1"
      = some [{ criterion := "output file exists", verificationCommand := none,
                verified := false }] := by
  decide

/-- C6 counterexample: a conversational reply containing the failure signal
"failed" does not halt the loop — with a step budget of two, the loop goes on
to consume the second completion. -/
theorem c6_counterexample :
    (stepLoop oC6 2 (some "T1") (stWith taskNoCrit) noEffects).steps = 2 ∧
    ¬ (stepLoop oC6 2 (some "T1") (stWith taskNoCrit) noEffects).steps = 1 := by
  decide

/-! ## C2: amended theorem -/

/-- C2 (amended): a VerifyCriterion addressed to the active task runs its
command once through `runCommand` — which retries on non-zero exit (default
three retries), rather than executing the command exactly once — and then
applies the pass heuristic: reported success AND lowercased output containing
neither "error" nor "not found".  On fail the ledger is untouched; on pass
the indexed criterion (when the index is in range) is marked verified. -/
theorem c2_verify_retry_and_heuristic (o : Oracle) (n : Nat) (cid : String) (idx : Nat)
    (cmd tx : String) (t : Task) (st : AgentState) (eff : Effects) (cur0 : Option String)
    (hreply : o.reply n = ⟨tx, some (Action.verify cid idx cmd)⟩)
    (hts : st.tasks = { current := cur0, pending := [], active := [t], completed := [] })
    (ht : t.id = cid) :
    (doStep o n (some cid) st eff).eff.cmdRuns
      = eff.cmdRuns ++
        [(cmd, (runCommand (o.ex n) cmd 3).2.1, (runCommand (o.ex n) cmd 3).2.2)] ∧
    (verificationPassed (runCommand (o.ex n) cmd 3).1 = false →
      (doStep o n (some cid) st eff).st.tasks = st.tasks) ∧
    (verificationPassed (runCommand (o.ex n) cmd 3).1 = true →
      taskCriteriaOf (doStep o n (some cid) st eff).st.tasks cid
        = some (if idx < t.successCriteria.length then
                  listModify (fun c => { c with verified := true }) idx t.successCriteria
                else t.successCriteria)) := by
  have hbeq : (t.id == cid) = true := by rw [ht]; exact beq_self_eq_true cid
  unfold doStep
  rw [hreply]
  refine ⟨?_, ?_, ?_⟩
  · simp only [beq_self_eq_true, if_true]
    split
    · split
      · rfl
      · rfl
    · rfl
  · intro hpass
    simp only [beq_self_eq_true, if_true, hpass, Bool.false_eq_true, if_false]
    rfl
  · intro hpass
    simp only [beq_self_eq_true, if_true, hpass, tasks_pushMsg]
    by_cases hidx : idx < t.successCriteria.length <;>
      simp only [hts, modifyTask, modifyFirstTask, hbeq, hidx, if_true, if_false,
        ite_true, ite_false] <;>
      split <;>
      simp [taskCriteriaOf, findTask, allTasks, updateTaskStatus, removeFirstTask,
        hbeq, ht, hidx]

/-- Witness for C2 (amended). -/
theorem c2_verify_retry_and_heuristic_witness :
    (doStep oC2 1 (some "T1") (stWith taskOneCrit) noEffects).eff.cmdRuns
      = noEffects.cmdRuns ++
        [("test -f out.txt", (runCommand (oC2.ex 1) "test -f out.txt" 3).2.1,
          (runCommand (oC2.ex 1) "test -f out.txt" 3).2.2)] ∧
    (verificationPassed (runCommand (oC2.ex 1) "test -f out.txt" 3).1 = false →
      (doStep oC2 1 (some "T1") (stWith taskOneCrit) noEffects).st.tasks
        = (stWith taskOneCrit).tasks) ∧
    (verificationPassed (runCommand (oC2.ex 1) "test -f out.txt" 3).1 = true →
      taskCriteriaOf (doStep oC2 1 (some "T1") (stWith taskOneCrit) noEffects).st.tasks "T1"
        = some (if 0 < taskOneCrit.successCriteria.length then
                  listModify (fun c => { c with verified := true }) 0
                    taskOneCrit.successCriteria
                else taskOneCrit.successCriteria)) :=
  c2_verify_retry_and_heuristic oC2 1 "T1" 0 "test -f out.txt" "verify it" taskOneCrit
    (stWith taskOneCrit) noEffects none rfl rfl rfl

/-! ## C3 and C6: amended theorems -/

/-- C3 (amended): when a Run action's command still fails after the retry
sequence, the executor immediately marks the active task `failed` — it does
not leave the status unchanged or wait for a failure signal in a later
reply — and the loop continues to the next step. -/
theorem c3_run_failure_fails_task (o : Oracle) (n : Nat) (cid cmd tx : String)
    (t : Task) (st : AgentState) (eff : Effects) (cur0 : Option String)
    (hreply : o.reply n = ⟨tx, some (Action.run cmd)⟩)
    (hauto : o.autoApprove = true)
    (hfail : (runCommand (o.ex n) cmd 3).1.success = false)
    (hts : st.tasks = { current := cur0, pending := [], active := [t], completed := [] })
    (ht : t.id = cid) :
    (doStep o n (some cid) st eff).brk = false ∧
    taskStatusOf (doStep o n (some cid) st eff).st.tasks cid = some "failed" := by
  have hbeq : (t.id == cid) = true := by rw [ht]; exact beq_self_eq_true cid
  unfold doStep
  rw [hreply]
  simp only [hauto, Bool.not_true, Bool.false_and, Bool.false_eq_true, if_false, hfail,
    Bool.not_false, if_true]
  constructor
  · trivial
  · simp [taskStatusOf, findTask, allTasks, updateTaskStatus, removeFirstTask, hts, hbeq]

/-- Witness for C3 (amended). -/
theorem c3_run_failure_fails_task_witness :
    (doStep oC3 1 (some "T1") (stWith taskNoCrit) noEffects).brk = false ∧
    taskStatusOf (doStep oC3 1 (some "T1") (stWith taskNoCrit) noEffects).st.tasks "T1"
      = some "failed" :=
  c3_run_failure_fails_task oC3 1 "T1" "make build" "run it" taskNoCrit
    (stWith taskNoCrit) noEffects none rfl rfl (by decide) rfl rfl

/-- C6 (amended): a conversational reply carrying a failure signal marks the
current task `failed` but is not a termination condition — the step loop
continues rather than returning control to the caller. -/
theorem c6_failure_signal_continues (o : Oracle) (n : Nat) (cid tx : String)
    (t : Task) (st : AgentState) (eff : Effects) (cur0 : Option String)
    (hreply : o.reply n = ⟨tx, none⟩)
    (hfailsig : failureWords tx = true)
    (hnotcomp : completionWords tx = false)
    (hver : verifyTaskCompletion st.tasks cid = false)
    (hts : st.tasks = { current := cur0, pending := [], active := [t], completed := [] })
    (ht : t.id = cid) :
    (doStep o n (some cid) st eff).brk = false ∧
    taskStatusOf (doStep o n (some cid) st eff).st.tasks cid = some "failed" := by
  have hbeq : (t.id == cid) = true := by rw [ht]; exact beq_self_eq_true cid
  unfold doStep
  rw [hreply]
  simp only [tasks_pushMsg, tasks_compressState, tasks_updateSystemPrompt, hver,
    Bool.false_eq_true, if_false, hnotcomp, Bool.false_and, hfailsig, if_true]
  constructor
  · trivial
  · simp [taskStatusOf, findTask, allTasks, updateTaskStatus, removeFirstTask, hts, hbeq]

/-- Witness for C6 (amended). -/
theorem c6_failure_signal_continues_witness :
    (doStep oC6 1 (some "T1") (stWith taskNoCrit) noEffects).brk = false ∧
    taskStatusOf (doStep oC6 1 (some "T1") (stWith taskNoCrit) noEffects).st.tasks "T1"
      = some "failed" :=
  c6_failure_signal_continues oC6 1 "T1" "the build failed" taskNoCrit
    (stWith taskNoCrit) noEffects none rfl (by decide) (by decide) (by decide) rfl rfl


/-! ## Ledger-preservation lemmas (towards C4 and C10)

All ledger mutations of the loop address the current task by id; a task with
a different id is never touched.  The lemmas below make that precise for each
primitive. -/

theorem removeFirstTask_matches (cid : String) :
    ∀ l t l', removeFirstTask cid l = some (t, l') → (t.id == cid) = true := by
  intro l
  induction l with
  | nil => intro t l' h; simp [removeFirstTask] at h
  | cons x xs ih =>
    intro t l' h
    unfold removeFirstTask at h
    split at h
    · next hx =>
      simp only [Option.some.injEq, Prod.mk.injEq] at h
      obtain ⟨rfl, rfl⟩ := h
      exact hx
    · next hx =>
      split at h
      · next t' ts' hrec =>
        simp only [Option.some.injEq, Prod.mk.injEq] at h
        obtain ⟨rfl, rfl⟩ := h
        exact ih _ _ hrec
      · exact absurd h (by simp)

theorem find?_removeFirstTask_ne (cid tid : String) (hne : cid ≠ tid) :
    ∀ l t l', removeFirstTask cid l = some (t, l') →
      l'.find? (fun u => u.id == tid) = l.find? (fun u => u.id == tid) := by
  intro l
  induction l with
  | nil => intro t l' h; simp [removeFirstTask] at h
  | cons x xs ih =>
    intro t l' h
    unfold removeFirstTask at h
    split at h
    · next hx =>
      simp only [Option.some.injEq, Prod.mk.injEq] at h
      obtain ⟨rfl, rfl⟩ := h
      have hxpf : (x.id == tid) = false := by
        rw [beq_eq_false_iff_ne, eq_of_beq hx]
        exact hne
      simp [List.find?_cons, hxpf]
    · next hx =>
      split at h
      · next t' ts' hrec =>
        simp only [Option.some.injEq, Prod.mk.injEq] at h
        obtain ⟨rfl, rfl⟩ := h
        simp only [List.find?_cons]
        cases hxp : (x.id == tid)
        · exact ih _ _ hrec
        · rfl
      · exact absurd h (by simp)

theorem find?_modifyFirstTask_ne (cid tid : String) (hne : cid ≠ tid) (f : Task → Task)
    (hf : ∀ x, (f x).id = x.id) :
    ∀ l l', modifyFirstTask cid f l = some l' →
      l'.find? (fun u => u.id == tid) = l.find? (fun u => u.id == tid) := by
  intro l
  induction l with
  | nil => intro l' h; simp [modifyFirstTask] at h
  | cons x xs ih =>
    intro l' h
    unfold modifyFirstTask at h
    split at h
    · next hx =>
      simp only [Option.some.injEq] at h
      subst h
      have hxpf : (x.id == tid) = false := by
        rw [beq_eq_false_iff_ne, eq_of_beq hx]
        exact hne
      have hfpf : ((f x).id == tid) = false := by
        rw [beq_eq_false_iff_ne, hf x, eq_of_beq hx]
        exact hne
      simp [List.find?_cons, hxpf, hfpf]
    · next hx =>
      split at h
      · next ts' hrec =>
        simp only [Option.some.injEq] at h
        subst h
        simp only [List.find?_cons]
        cases hxp : (x.id == tid)
        · exact ih _ hrec
        · rfl
      · exact absurd h (by simp)

theorem findTask_push_pending (tid : String) (ts : Tasks) (x : Task)
    (hx : (x.id == tid) = false) :
    findTask { ts with pending := ts.pending ++ [x] } tid = findTask ts tid := by
  unfold findTask allTasks
  simp [hx]

theorem findTask_push_active (tid : String) (ts : Tasks) (x : Task)
    (hx : (x.id == tid) = false) :
    findTask { ts with active := ts.active ++ [x] } tid = findTask ts tid := by
  unfold findTask allTasks
  simp [hx]

theorem findTask_push_completed (tid : String) (ts : Tasks) (x : Task)
    (hx : (x.id == tid) = false) :
    findTask { ts with completed := ts.completed ++ [x] } tid = findTask ts tid := by
  unfold findTask allTasks
  simp [hx]

theorem findTask_modifyTask_ne (cid tid : String) (hne : cid ≠ tid) (f : Task → Task)
    (hf : ∀ x, (f x).id = x.id) (ts : Tasks) :
    findTask (modifyTask cid f ts).1 tid = findTask ts tid := by
  unfold modifyTask
  rcases h1 : modifyFirstTask cid f ts.pending with _ | p
  · rcases h2 : modifyFirstTask cid f ts.active with _ | a
    · rcases h3 : modifyFirstTask cid f ts.completed with _ | c
      · simp only [h1, h2, h3]
      · simp only [h1, h2, h3]
        unfold findTask allTasks
        simp only [List.find?_append, find?_modifyFirstTask_ne cid tid hne f hf _ _ h3]
    · simp only [h1, h2]
      unfold findTask allTasks
      simp only [List.find?_append, find?_modifyFirstTask_ne cid tid hne f hf _ _ h2]
  · simp only [h1]
    unfold findTask allTasks
    simp only [List.find?_append, find?_modifyFirstTask_ne cid tid hne f hf _ _ h1]

theorem findTask_updateTaskStatus_ne (cid tid status : String) (hne : cid ≠ tid)
    (result : Option String) (now : Nat) (ts : Tasks) :
    findTask (updateTaskStatus cid status result now ts).1 tid = findTask ts tid := by
  unfold updateTaskStatus
  rcases h1 : removeFirstTask cid ts.pending with _ | ⟨t1, p1⟩
  · rcases h2 : removeFirstTask cid ts.active with _ | ⟨t2, a2⟩
    · rcases h3 : removeFirstTask cid ts.completed with _ | ⟨t3, c3⟩
      · simp only [h1, h2, h3]
      · simp only [h1, h2, h3]
        have hmatch : (t3.id == tid) = false := by
          rw [beq_eq_false_iff_ne, eq_of_beq (removeFirstTask_matches cid _ _ _ h3)]
          exact hne
        have hrest : findTask { ts with completed := c3 } tid = findTask ts tid := by
          unfold findTask allTasks
          simp only [List.find?_append, find?_removeFirstTask_ne cid tid hne _ _ _ h3]
        split
        · refine Eq.trans (findTask_push_pending tid { ts with completed := c3 } _ ?_) hrest
          exact hmatch
        · split
          · refine Eq.trans (findTask_push_active tid { ts with completed := c3 } _ ?_) hrest
            exact hmatch
          · split
            · refine Eq.trans
                (findTask_push_completed tid { ts with completed := c3 } _ ?_) hrest
              exact hmatch
            · exact hrest
    · simp only [h1, h2]
      have hmatch : (t2.id == tid) = false := by
        rw [beq_eq_false_iff_ne, eq_of_beq (removeFirstTask_matches cid _ _ _ h2)]
        exact hne
      have hrest : findTask { ts with active := a2 } tid = findTask ts tid := by
        unfold findTask allTasks
        simp only [List.find?_append, find?_removeFirstTask_ne cid tid hne _ _ _ h2]
      split
      · refine Eq.trans (findTask_push_pending tid { ts with active := a2 } _ ?_) hrest
        exact hmatch
      · split
        · refine Eq.trans (findTask_push_active tid { ts with active := a2 } _ ?_) hrest
          exact hmatch
        · split
          · refine Eq.trans (findTask_push_completed tid { ts with active := a2 } _ ?_) hrest
            exact hmatch
          · exact hrest
  · simp only [h1]
    have hmatch : (t1.id == tid) = false := by
      rw [beq_eq_false_iff_ne, eq_of_beq (removeFirstTask_matches cid _ _ _ h1)]
      exact hne
    have hrest : findTask { ts with pending := p1 } tid = findTask ts tid := by
      unfold findTask allTasks
      simp only [List.find?_append, find?_removeFirstTask_ne cid tid hne _ _ _ h1]
    split
    · refine Eq.trans (findTask_push_pending tid { ts with pending := p1 } _ ?_) hrest
      exact hmatch
    · split
      · refine Eq.trans (findTask_push_active tid { ts with pending := p1 } _ ?_) hrest
        exact hmatch
      · split
        · refine Eq.trans (findTask_push_completed tid { ts with pending := p1 } _ ?_) hrest
          exact hmatch
        · exact hrest

theorem findTask_addTask_ne (newId tid : String) (hne : newId ≠ tid)
    (now : Nat) (description : String) (steps : List String) (ts : Tasks) :
    findTask (addTask newId now description steps ts).2 tid = findTask ts tid := by
  unfold addTask
  exact findTask_push_pending tid ts _ (by simp [beq_eq_false_iff_ne]; exact hne)

theorem findTask_addSuccessCriterion_ne (cid tid : String) (hne : cid ≠ tid)
    (criterion : String) (vc : Option String) (now : Nat) (ts : Tasks) :
    findTask (addSuccessCriterion cid criterion vc now ts).1 tid = findTask ts tid := by
  unfold addSuccessCriterion
  exact findTask_modifyTask_ne cid tid hne
    (fun t =>
      { t with
        successCriteria := t.successCriteria ++
          [{ criterion := criterion, verificationCommand := vc, verified := false }],
        updatedAt := now })
    (fun x => rfl) ts

theorem removeFirstTask_eq_none (cid : String) :
    ∀ l : List Task, (∀ u ∈ l, (u.id == cid) = false) → removeFirstTask cid l = none := by
  intro l
  induction l with
  | nil => intro _; rfl
  | cons x xs ih =>
    intro h
    unfold removeFirstTask
    rw [h x (List.mem_cons_self x xs)]
    simp only [Bool.false_eq_true, if_false,
      ih (fun u hu => h u (List.mem_cons_of_mem x hu))]

theorem removeFirstTask_of_find? (cid : String) :
    ∀ l t, l.find? (fun u => u.id == cid) = some t →
      ∃ l', removeFirstTask cid l = some (t, l') := by
  intro l
  induction l with
  | nil => intro t h; simp at h
  | cons x xs ih =>
    intro t h
    rw [List.find?_cons] at h
    unfold removeFirstTask
    cases hx : (x.id == cid) with
    | true =>
      rw [hx] at h
      simp only [Option.some.injEq] at h
      subst h
      simp [hx]
    | false =>
      rw [hx] at h
      simp only at h
      obtain ⟨l', hl'⟩ := ih t h
      simp only [Bool.false_eq_true, if_false, hl']
      exact ⟨x :: l', rfl⟩

theorem updateTaskStatus_demote_from_completed (cid : String) (ts : Tasks) (t : Task)
    (now : Nat)
    (hp : ∀ u ∈ ts.pending, (u.id == cid) = false)
    (ha : ∀ u ∈ ts.active, (u.id == cid) = false)
    (hc : ts.completed.find? (fun u => u.id == cid) = some t) :
    findTask (updateTaskStatus cid "pending" none now ts).1 cid
      = some { t with status := "pending", updatedAt := now } := by
  obtain ⟨c', hc'⟩ := removeFirstTask_of_find? cid ts.completed t hc
  have htid : (t.id == cid) = true := by
    have h' := List.find?_some hc
    simpa using h'
  unfold updateTaskStatus
  rw [removeFirstTask_eq_none cid ts.pending hp, removeFirstTask_eq_none cid ts.active ha, hc']
  simp only [beq_self_eq_true, if_true]
  unfold findTask allTasks
  simp only [List.find?_append]
  rw [List.find?_eq_none.mpr (fun u hu => by simp [hp u hu])]
  simp [htid]

theorem findTask_foldl_addSuccessCriterion_ne (cid tid : String) (hne : cid ≠ tid)
    (now : Nat) : ∀ (cs : List String) (ts : Tasks),
    findTask (cs.foldl (fun ts c => (addSuccessCriterion cid c none now ts).1) ts) tid
      = findTask ts tid := by
  intro cs
  induction cs with
  | nil => intro ts; rfl
  | cons c cs ih =>
    intro ts
    simp only [List.foldl_cons]
    rw [ih, findTask_addSuccessCriterion_ne cid tid hne]

/-- One loop iteration never touches a ledger task whose id differs from the
current task's id: every mutation in every branch addresses `cur`. -/
theorem doStep_findTask_ne (o : Oracle) (n : Nat) (cur : Option String) (tid : String)
    (hcur : ∀ cid, cur = some cid → cid ≠ tid) (st : AgentState) (eff : Effects) :
    findTask (doStep o n cur st eff).st.tasks tid = findTask st.tasks tid := by
  cases hr : o.reply n with
  | mk tx parsed =>
    cases parsed with
    | none =>
      cases cur with
      | none => simp [doStep, hr]
      | some cid =>
        have hne := hcur cid rfl
        simp only [doStep, hr, tasks_pushMsg, tasks_compressState, tasks_updateSystemPrompt]
        split
        · simp [findTask_updateTaskStatus_ne cid tid "completed" hne]
        · split
          · simp [findTask_updateTaskStatus_ne cid tid "completed" hne]
          · split
            · simp [findTask_updateTaskStatus_ne cid tid "failed" hne]
            · simp
    | some a =>
      cases a with
      | define_criteria atid cs =>
        cases cur with
        | none => simp [doStep, hr]
        | some cid =>
          have hne := hcur cid rfl
          simp only [doStep, hr, tasks_pushMsg, tasks_compressState, tasks_updateSystemPrompt]
          split
          · simp [findTask_foldl_addSuccessCriterion_ne cid tid hne]
          · simp
      | verify atid idx cmd =>
        cases cur with
        | none => simp [doStep, hr]
        | some cid =>
          have hne := hcur cid rfl
          have hidf : ∀ x : Task,
              ((fun t : Task =>
                if idx < t.successCriteria.length then
                  { t with successCriteria :=
                      listModify (fun c => { c with verified := true }) idx t.successCriteria }
                else t) x).id = x.id := by
            intro x
            dsimp only
            split <;> rfl
          simp only [doStep, hr, tasks_pushMsg, tasks_compressState, tasks_updateSystemPrompt]
          split
          · split
            · split
              · rw [findTask_updateTaskStatus_ne cid tid "completed" hne,
                  findTask_modifyTask_ne cid tid hne _ hidf]
              · simp [findTask_modifyTask_ne cid tid hne _ hidf]
            · simp
          · simp
      | run cmd =>
        simp only [doStep, hr, tasks_pushMsg, tasks_compressState, tasks_updateSystemPrompt]
        split
        · cases cur with
          | none => simp
          | some cid => simp [findTask_updateTaskStatus_ne cid tid "pending" (hcur cid rfl)]
        · split
          · cases cur with
            | none => simp
            | some cid => simp [findTask_updateTaskStatus_ne cid tid "failed" (hcur cid rfl)]
          · simp
      | patch file content =>
        simp only [doStep, hr, tasks_pushMsg, tasks_compressState, tasks_updateSystemPrompt]
        split
        · cases cur with
          | none => simp
          | some cid => simp [findTask_updateTaskStatus_ne cid tid "pending" (hcur cid rfl)]
        · simp
      | commit message => simp [doStep, hr]
      | read file => simp [doStep, hr]
      | other tag => simp [doStep, hr]

theorem stepLoopAux_findTask_ne (o : Oracle) (cur : Option String) (tid : String)
    (hcur : ∀ cid, cur = some cid → cid ≠ tid) :
    ∀ fuel steps st eff,
      findTask (stepLoopAux o cur fuel steps st eff).state.tasks tid
        = findTask st.tasks tid := by
  intro fuel
  induction fuel with
  | zero => intro steps st eff; rfl
  | succ fuel ih =>
    intro steps st eff
    simp only [stepLoopAux]
    split
    · exact doStep_findTask_ne o _ cur tid hcur st eff
    · rw [ih]
      exact doStep_findTask_ne o _ cur tid hcur st eff

theorem entryPhase_findTask_ne (o : Oracle) (freshId input tid : String) (st : AgentState)
    (hfresh : freshId ≠ tid) :
    findTask (entryPhase o freshId input st).2.tasks tid = findTask st.tasks tid := by
  unfold entryPhase
  by_cases hnew : isNewTask input = true
  · simp only [hnew, if_true, addTask, tasks_pushMsg, tasks_compressState,
      tasks_updateSystemPrompt]
    rw [findTask_updateTaskStatus_ne freshId tid "active" hfresh]
    exact findTask_push_pending tid st.tasks _ (by simp [beq_eq_false_iff_ne]; exact hfresh)
  · rw [Bool.not_eq_true] at hnew
    rw [hnew]
    rfl

theorem entryPhase_cur_ne (o : Oracle) (freshId input tid : String) (st : AgentState)
    (hfresh : freshId ≠ tid) (hact : ∀ u ∈ st.tasks.active, u.id ≠ tid) :
    ∀ cid, (entryPhase o freshId input st).1 = some cid → cid ≠ tid := by
  intro cid hcid
  unfold entryPhase at hcid
  by_cases hnew : isNewTask input = true
  · simp only [hnew, if_true, addTask] at hcid
    simp only [Option.some.injEq] at hcid
    subst hcid
    exact hfresh
  · rw [Bool.not_eq_true] at hnew
    rw [hnew] at hcid
    simp at hcid
    obtain ⟨u, hg, hu⟩ := hcid
    subst hu
    exact hact u (List.mem_of_getLast?_eq_some hg)

theorem stepLoop_findTask_ne (o : Oracle) (cur : Option String) (tid : String)
    (hcur : ∀ cid, cur = some cid → cid ≠ tid) (maxSteps : Nat) (st : AgentState)
    (eff : Effects) :
    findTask (stepLoop o maxSteps cur st eff).state.tasks tid = findTask st.tasks tid :=
  stepLoopAux_findTask_ne o cur tid hcur maxSteps 0 st eff

/-! ## C4 (amended) and C10 -/

/-- C4 (amended): every ledger mutation of the step loop addresses the
submission's current task by id, so a task that cannot be current is
preserved — criteria, flags, status and all — through an entire
`processInput` call.  A task with status `completed` is never in the active
bucket and is never handed a fresh id, so its criteria are immutable from
the moment it completes; a `failed` task that is still the ongoing
submission's current task, by contrast, can have criteria appended and
verified flags set (see the counterexample). -/
theorem c4_noncurrent_task_preserved (o : Oracle) (freshId : String) (maxSteps : Nat)
    (input : String) (st : AgentState) (t : Task)
    (h1 : input ≠ "/exit") (h2 : input ≠ "/reset") (h3 : input ≠ "/pwd")
    (h4 : input ≠ "/tasks")
    (hstatus : t.status = "completed")
    (hfind : findTask st.tasks t.id = some t)
    (hact : ∀ u ∈ st.tasks.active, u.id ≠ t.id)
    (hfresh : freshId ≠ t.id) :
    findTask (processInput o freshId maxSteps input st).1.tasks t.id = some t := by
  have e1 : (input == "/exit") = false := by simp [h1]
  have e2 : (input == "/reset") = false := by simp [h2]
  have e3 : (input == "/pwd") = false := by simp [h3]
  have e4 : (input == "/tasks") = false := by simp [h4]
  unfold processInput
  rw [e1, e2, e3, e4]
  simp only [Bool.false_eq_true, if_false]
  rcases hE : entryPhase o freshId input st with ⟨cur, st1⟩
  have hcur' : ∀ cid, cur = some cid → cid ≠ t.id := by
    intro cid hc
    exact entryPhase_cur_ne o freshId input t.id st hfresh hact cid (by rw [hE]; exact hc)
  have hst1 : findTask st1.tasks t.id = some t := by
    have h := entryPhase_findTask_ne o freshId input t.id st hfresh
    rw [hE] at h
    exact h.trans hfind
  dsimp only
  simp only [tasks_updateSystemPrompt]
  split
  · cases cur with
    | none =>
      rw [stepLoop_findTask_ne o none t.id hcur' maxSteps st1 noEffects]
      exact hst1
    | some cid =>
      rw [findTask_updateTaskStatus_ne cid t.id "pending" (hcur' cid rfl)]
      rw [stepLoop_findTask_ne o (some cid) t.id hcur' maxSteps st1 noEffects]
      exact hst1
  · rw [stepLoop_findTask_ne o cur t.id hcur' maxSteps st1 noEffects]
    exact hst1

/-- Witness for C4 (amended): a completed task survives a whole submission
untouched. -/
theorem c4_noncurrent_task_preserved_witness :
    findTask (processInput oC4 "T9" 1 "hello pal" stWithCompleted).1.tasks
      oldCompletedTask.id = some oldCompletedTask :=
  c4_noncurrent_task_preserved oC4 "T9" 1 "hello pal" stWithCompleted oldCompletedTask
    (by decide) (by decide) (by decide) (by decide) rfl (by decide) (by decide) (by decide)

/-- C10: when the current task is marked completed during the very iteration
in which the step counter reaches `maxSteps`, the loop's exit value satisfies
`steps >= maxSteps`, so the post-loop budget check fires anyway and moves the
just-completed task from the completed bucket back to `pending` —
`processInput` ends with the task pending even though its completion was
reported to the user. -/
theorem c10_budget_check_demotes_completed (o : Oracle) (freshId : String)
    (maxSteps : Nat) (input : String) (st : AgentState) (cid : String) (t : Task)
    (h1 : input ≠ "/exit") (h2 : input ≠ "/reset") (h3 : input ≠ "/pwd")
    (h4 : input ≠ "/tasks")
    (hcur : (entryPhase o freshId input st).1 = some cid)
    (hsteps : maxSteps ≤
      (stepLoop o maxSteps (some cid) (entryPhase o freshId input st).2 noEffects).steps)
    (hpend : ∀ u ∈ (stepLoop o maxSteps (some cid) (entryPhase o freshId input st).2
        noEffects).state.tasks.pending, (u.id == cid) = false)
    (hactive : ∀ u ∈ (stepLoop o maxSteps (some cid) (entryPhase o freshId input st).2
        noEffects).state.tasks.active, (u.id == cid) = false)
    (hfound : ((stepLoop o maxSteps (some cid) (entryPhase o freshId input st).2
        noEffects).state.tasks.completed).find? (fun u => u.id == cid) = some t)
    (hstatus : t.status = "completed") :
    findTask (processInput o freshId maxSteps input st).1.tasks cid
      = some { t with status := "pending", updatedAt := o.now (maxSteps + 1) } := by
  have e1 : (input == "/exit") = false := by simp [h1]
  have e2 : (input == "/reset") = false := by simp [h2]
  have e3 : (input == "/pwd") = false := by simp [h3]
  have e4 : (input == "/tasks") = false := by simp [h4]
  unfold processInput
  rw [e1, e2, e3, e4]
  simp only [Bool.false_eq_true, if_false]
  rcases hE : entryPhase o freshId input st with ⟨cur, st1⟩
  rw [hE] at hcur hsteps hpend hactive hfound
  dsimp only at hcur hsteps hpend hactive hfound ⊢
  subst hcur
  rw [if_pos hsteps]
  simp only [tasks_updateSystemPrompt]
  exact updateTaskStatus_demote_from_completed cid _ t _ hpend hactive hfound

/-- Witness for C10: a one-step budget, the task completed on that very step
by the fallback completion signal, and the final ledger carrying it as
pending again. -/
theorem c10_budget_check_demotes_completed_witness :
    findTask (processInput oC10 "T9" 1 "create file x" stEmpty).1.tasks "T9"
      = some { c10CompletedTask with status := "pending", updatedAt := oC10.now (1 + 1) } :=
  c10_budget_check_demotes_completed oC10 "T9" 1 "create file x" stEmpty "T9"
    c10CompletedTask (by decide) (by decide) (by decide) (by decide)
    (by decide) (by decide) (by decide) (by decide) (by decide) rfl

end Agent
